import Mathlib

/-!
Verification development for the Nocodile workflow execution engine.

The definitions below are a shallow embedding of the Python source:
* `core/views.py` — the condition evaluator (`evaluate_comparison`,
  `evaluate_condition`, `evaluate_conditions`);
* `core/workflow_engine.py` — the `WorkflowEngine` static methods
  (`get_available_actions`, `get_approvers`, `create_approval_task`,
  `transition_to_state`, `execute_approval_action`,
  `check_state_permissions`);
* `core/models.py` — the persisted records, modelled as Lean structures,
  with the durable store modelled as lists of rows held in a `Store`
  structure.  List order encodes each Django model Meta ordering.

Modelling conventions:
* Python values appearing in document data and JSON configuration are
  modelled by the inductive `PyVal` (JSON-like: none, bool, int, str,
  list, dict with string keys).  Python floats are modelled as rationals;
  no theorem below depends on rounding, and the decimal rendering of a
  non-integral float is not modelled (no theorem depends on it either).
* Python `float(x)` string parsing is modelled for the common grammar
  optional sign, digits, optional single decimal point, surrounded by
  optional whitespace; exponents and the inf and nan spellings are not
  modelled and no theorem depends on them.
* Exceptions are modelled with `Except PyErr`; the only exceptions the
  embedded operations can produce are ValueError and TypeError, exactly
  the ones the Python evaluator catches.
* Database uuids, user ids and timestamps are modelled as naturals; the
  store carries a fresh-id counter and the current time.
-/

/-- Exceptions the embedded Python fragments can raise. -/
inductive PyErr where
  | valueError
  | typeError
deriving DecidableEq, Repr

/-- JSON-like Python values as stored in document data and JSONFields. -/
inductive PyVal where
  | none
  | bool (b : Bool)
  | int (n : Int)
  | float (q : Rat)
  | str (s : String)
  | list (xs : List PyVal)
  | dict (entries : List (String × PyVal))

namespace PyVal

mutual

/-- Structural equality on modelled Python values. -/
def beq : PyVal → PyVal → Bool
  | .none, .none => true
  | .bool a, .bool b => a == b
  | .int a, .int b => a == b
  | .float a, .float b => a == b
  | .str a, .str b => a == b
  | .list a, .list b => beqList a b
  | .dict a, .dict b => beqEntries a b
  | _, _ => false

def beqList : List PyVal → List PyVal → Bool
  | [], [] => true
  | x :: xs, y :: ys => beq x y && beqList xs ys
  | _, _ => false

def beqEntries : List (String × PyVal) → List (String × PyVal) → Bool
  | [], [] => true
  | (k, v) :: xs, (k2, v2) :: ys => k == k2 && beq v v2 && beqEntries xs ys
  | _, _ => false

end

/-- Numeric view shared by int, bool and float (Python treats bool as a
number: True == 1). -/
def num? : PyVal → Option Rat
  | .int n => some (n : Rat)
  | .bool b => some (if b then 1 else 0)
  | .float q => some q
  | _ => Option.none

/-- Python truthiness. -/
def truthy : PyVal → Bool
  | .none => false
  | .bool b => b
  | .int n => n != 0
  | .float q => q != 0
  | .str s => s != ""
  | .list xs => !xs.isEmpty
  | .dict d => !d.isEmpty

def isList : PyVal → Bool
  | .list _ => true
  | _ => false

def isStr : PyVal → Bool
  | .str _ => true
  | _ => false

/-- Python `==`.  Numbers compare numerically across int, bool and float.
Lists compare elementwise.  Dict comparison is modelled structurally on
the entry list; Python ignores insertion order, but no theorem below
compares dict-valued operands. -/
def pyEq : PyVal → PyVal → Bool
  | .list (x :: xs), .list (y :: ys) => pyEq x y && pyEq (.list xs) (.list ys)
  | .list [], .list [] => true
  | .list _, .list _ => false
  | .dict a, .dict b => beqEntries a b
  | a, b =>
    match a.num?, b.num? with
    | some x, some y => x == y
    | _, _ =>
      match a, b with
      | .str x, .str y => x == y
      | .none, .none => true
      | _, _ => false

end PyVal

/-- An ASCII single quote, used by the Python repr of strings. -/
def squote : String := String.singleton (Char.ofNat 39)

/-- Whitespace for the modelled Python strip. -/
def isWS (c : Char) : Bool :=
  c == ' ' || c == Char.ofNat 9 || c == Char.ofNat 10 || c == Char.ofNat 13

/-- Python `str.strip()` for ASCII whitespace. -/
def strTrim (s : String) : String :=
  String.mk (((s.toList.dropWhile isWS).reverse.dropWhile isWS).reverse)

/-- Python `c in s` for a single character. -/
def strContainsChar (s : String) (c : Char) : Bool :=
  s.toList.contains c

/-- Python `s.lower()` (ASCII). -/
def strToLower (s : String) : String :=
  String.mk (s.toList.map Char.toLower)

/-- Python `s.replace(a, b)` for single-character patterns. -/
def strReplaceChar (s : String) (a b : Char) : String :=
  String.mk (s.toList.map (fun c => if c == a then b else c))

/-- Python `s.startswith(p)`. -/
def strStartsWith (s p : String) : Bool :=
  p.toList.isPrefixOf s.toList

/-- Python `s.endswith(p)`. -/
def strEndsWith (s p : String) : Bool :=
  p.toList.isSuffixOf s.toList

/-- Split a character list on a separator character; the result always
has one more part than there are separators. -/
def splitCharAux (sep : Char) : List Char → List (List Char)
  | [] => [[]]
  | c :: rest =>
    let r := splitCharAux sep rest
    if c == sep then [] :: r
    else
      match r with
      | h :: t => (c :: h) :: t
      | [] => [[c]]

/-- Python `s.split(sep)` for a single-character separator. -/
def strSplitOnChar (s : String) (sep : Char) : List String :=
  (splitCharAux sep s.toList).map String.mk

/-- Python `sep.join(xs)`. -/
def joinWith (sep : String) : List String → String
  | [] => ""
  | [x] => x
  | x :: xs => x ++ sep ++ joinWith sep xs

/-- Decimal rendering of a float whose value is integral; the Python
rendering of a non-integral float is not modelled (see header). -/
def floatStr (q : Rat) : String :=
  if q.den = 1 then toString q.num ++ ".0" else toString q

mutual

/-- Python `repr`, as used when rendering containers. -/
def pyRepr : PyVal → String
  | .none => "None"
  | .bool true => "True"
  | .bool false => "False"
  | .int n => toString n
  | .float q => floatStr q
  | .str s => squote ++ s ++ squote
  | .list xs => "[" ++ joinWith ", " (pyReprList xs) ++ "]"
  | .dict d => "\x7b" ++ joinWith ", " (pyReprDict d) ++ "\x7d"

def pyReprList : List PyVal → List String
  | [] => []
  | x :: xs => pyRepr x :: pyReprList xs

def pyReprDict : List (String × PyVal) → List String
  | [] => []
  | (k, v) :: d => (squote ++ k ++ squote ++ ": " ++ pyRepr v) :: pyReprDict d

end

/-- Python `str`. -/
def pyStr : PyVal → String
  | .str s => s
  | v => pyRepr v

/-- Digits of a base-ten literal to a natural. -/
def natOfDigits (s : String) : Nat :=
  s.toList.foldl (fun a c => a * 10 + (c.toNat - 48)) 0

/-- Python `float(string)` for the modelled grammar (see header). -/
def parseFloat? (s : String) : Option Rat :=
  let t := strTrim s
  let (sign, body) : Rat × String :=
    match t.toList with
    | '-' :: rest => (-1, String.mk rest)
    | '+' :: rest => (1, String.mk rest)
    | _ => (1, t)
  match strSplitOnChar body '.' with
  | [ip] =>
    if ip.length > 0 && ip.toList.all Char.isDigit then
      some (sign * (natOfDigits ip : Rat))
    else Option.none
  | [ip, fp] =>
    if ip.length + fp.length > 0 && ip.toList.all Char.isDigit && fp.toList.all Char.isDigit then
      some (sign * ((natOfDigits (ip ++ fp) : Rat) / ((10 : Rat) ^ fp.toList.length)))
    else Option.none
  | _ => Option.none

/-- Python `float(x)`. -/
def pyToFloat : PyVal → Except PyErr Rat
  | .int n => .ok (n : Rat)
  | .bool b => .ok (if b then 1 else 0)
  | .float q => .ok q
  | .str s =>
    match parseFloat? s with
    | some q => .ok q
    | Option.none => .error .valueError
  | .none => .error .typeError
  | .list _ => .error .typeError
  | .dict _ => .error .typeError

/-- Whether `pyToFloat` succeeds: numeric coercibility of a value. -/
def floatOk (v : PyVal) : Bool :=
  match pyToFloat v with
  | .ok _ => true
  | .error _ => false

/-- Occurrence of `pat` inside `hay` over character lists. -/
def listContains (hay pat : List Char) : Bool :=
  match hay with
  | [] => pat.isEmpty
  | _ :: t => pat.isPrefixOf hay || listContains t pat

/-- Python substring test `pat in hay` on strings. -/
def strContains (hay pat : String) : Bool :=
  listContains hay.toList pat.toList

/-- First-match lookup in an association list, the model of Python
`dict.get(key)` (dicts have unique keys, so first match is the match). -/
def entryLookup (d : List (String × PyVal)) (k : String) : Option PyVal :=
  (d.find? (fun kv => kv.1 == k)).map (fun kv => kv.2)

/-- Python `dict.get(key, default)`. -/
def entryLookupD (d : List (String × PyVal)) (k : String) (dflt : PyVal) : PyVal :=
  (entryLookup d k).getD dflt

/-- Python `left in right` (the `in` and `not_in` operators). -/
def pyIn (l r : PyVal) : Except PyErr Bool :=
  match r with
  | .str rs =>
    match l with
    | .str ls => .ok (strContains rs ls)
    | _ => .error .typeError
  | .list xs => .ok (xs.any (fun x => PyVal.pyEq l x))
  | .dict d => .ok (d.any (fun kv => PyVal.pyEq l (.str kv.1)))
  | _ => .error .typeError

/-- Body of `evaluate_comparison` (views.py lines 1253 to 1280) before the
try/except wrapper: the operator dispatch, with the exceptions each
Python operation can raise made explicit. -/
def compare_body (left : PyVal) (operator : String) (right : PyVal) : Except PyErr Bool :=
  if operator = "=" then .ok (PyVal.pyEq left right)
  else if operator = "!=" then .ok (!PyVal.pyEq left right)
  else if operator = "<" then do
    let a ← pyToFloat left
    let b ← pyToFloat right
    .ok (decide (a < b))
  else if operator = "<=" then do
    let a ← pyToFloat left
    let b ← pyToFloat right
    .ok (decide (a ≤ b))
  else if operator = ">" then do
    let a ← pyToFloat left
    let b ← pyToFloat right
    .ok (decide (a > b))
  else if operator = ">=" then do
    let a ← pyToFloat left
    let b ← pyToFloat right
    .ok (decide (a ≥ b))
  else if operator = "in" then pyIn left right
  else if operator = "not_in" then do
    let b ← pyIn left right
    .ok (!b)
  else if operator = "contains" then
    -- Python: `right in str(left)` — only the left operand is coerced
    match right with
    | .str rs => .ok (strContains (pyStr left) rs)
    | _ => .error .typeError
  else if operator = "starts_with" then
    .ok (strStartsWith (pyStr left) (pyStr right))
  else if operator = "ends_with" then
    .ok (strEndsWith (pyStr left) (pyStr right))
  else .ok false

/-- `evaluate_comparison` (views.py lines 1253 to 1280).  The Python
function wraps the dispatch in try/except (ValueError, TypeError) and
returns False on a caught exception; those are the only exceptions the
body can raise, so the result is a total Bool. -/
def evaluate_comparison (left : PyVal) (operator : String) (right : PyVal) : Bool :=
  match compare_body left operator right with
  | .ok b => b
  | .error _ => false

/-- A workflow condition record (the dict read by `evaluate_condition`).
A field holds `Option.none` when the corresponding key is absent from
the dict; `condition.get("value")` returns Python None when absent, so
`value` is a plain `PyVal` with `.none` standing for the absent key. -/
structure Condition where
  field : Option String := Option.none
  operator : Option String := Option.none
  value : PyVal := .none
  arrayMode : Option String := Option.none
  sectionKey : Option String := Option.none

/-- Truthiness of an optional string, as in `not section_key` and
`not array_mode`: absent and empty are falsy. -/
def optStrTruthy : Option String → Bool
  | Option.none => false
  | some s => s != ""

/-- The section-splitting prelude of `evaluate_condition` (views.py lines
1304 to 1312): a dotted field path is split at its first dot, otherwise a
truthy explicit sectionKey is used, otherwise there is no section. -/
def conditionSection (c : Condition) : Option String × String :=
  let field_path := c.field.getD ""
  if strContainsChar field_path '.' then
    let parts := strSplitOnChar field_path '.'
    (some (parts.headD ""), joinWith "." parts.tail)
  else if optStrTruthy c.sectionKey then
    (c.sectionKey, field_path)
  else
    (Option.none, field_path)

/-- Field read of one row of a repeatable section:
`row.get(field_key) if isinstance(row, dict) else None`. -/
def rowGet (row : PyVal) (k : String) : PyVal :=
  match row with
  | .dict d => entryLookupD d k .none
  | _ => .none

/-- `evaluate_condition` (views.py lines 1283 to 1367). -/
def evaluate_condition (c : Condition) (data : List (String × PyVal)) : Bool :=
  let operator := c.operator.getD "="
  let target_value := c.value
  let array_mode := c.arrayMode
  let (section_key, field_key) := conditionSection c
  -- `if not section_key or not array_mode:` — scalar lookup
  if !optStrTruthy section_key || !optStrTruthy array_mode then
    evaluate_comparison (entryLookupD data field_key .none) operator target_value
  else
    -- `rows = data.get(section_key, [])` — a missing key defaults to []
    let rows_val := entryLookupD data (section_key.getD "") (.list [])
    match rows_val with
    | .list rows =>
      let mode := array_mode.getD ""
      if mode = "any" then
        rows.any (fun row => evaluate_comparison (rowGet row field_key) operator target_value)
      else if mode = "all" then
        if rows.isEmpty then false
        else rows.all (fun row => evaluate_comparison (rowGet row field_key) operator target_value)
      else if mode = "none" then
        rows.all (fun row => !evaluate_comparison (rowGet row field_key) operator target_value)
      else if mode = "count" then
        evaluate_comparison (.int rows.length) operator target_value
      else if mode = "sum" then
        -- non-dict rows are skipped; a falsy row value contributes 0; a
        -- row value that fails float coercion is skipped (except: pass)
        let total : Rat := rows.foldl
          (fun acc row =>
            match row with
            | .dict d =>
              let val := entryLookupD d field_key (.int 0)
              if val.truthy then
                match pyToFloat val with
                | .ok q => acc + q
                | .error _ => acc
              else acc
            | _ => acc)
          0
        -- Python leaves total as int 0 when nothing was added; the
        -- numeric comparison semantics of pyEq make that distinction
        -- unobservable to evaluate_comparison except via str rendering,
        -- which no condition below exercises
        evaluate_comparison (.float total) operator target_value
      else false
    | _ => false

/-- `evaluate_conditions` (views.py lines 1370 onward): and/or over a
condition list, vacuously true on the empty list. -/
def evaluate_conditions (cs : List Condition) (data : List (String × PyVal)) (logic : String) : Bool :=
  if cs.isEmpty then true
  else
    let results := cs.map (fun c => evaluate_condition c data)
    if logic = "or" then results.any id
    else results.all id

namespace Nocodile

/-! ## Engine data model (core/models.py)

Rows are Lean structures; the store holds each table as a list whose
order encodes the Django Meta ordering of the model:
`workflow_connections` and `workflow_nodes` ascending by created_at,
`workflows` descending by created_at.  `Document.current_state`,
`Document.submitted_by` and `Workflow.is_active` are referenced by
workflow_engine.py although models.py does not declare them; they are
modelled per the data model of the spec (a document carries a mutable
current state string and a submitting user; a workflow carries an
active flag). -/

/-- The `action_config` JSON of a connection; absent keys are `none`. -/
structure ActionConfig where
  label : Option String := Option.none
  buttonColor : Option String := Option.none
  requiresComment : Option Bool := Option.none
  order : Option Int := Option.none
  icon : Option String := Option.none
deriving DecidableEq, Repr

/-- The view block of a state node permissions config. -/
structure ViewPerms where
  includeSubmitter : Bool := false
  includeApprovers : Bool := false
  roles : List String := []
  users : List String := []
deriving DecidableEq, Repr

/-- The permissions config of a state node (engine-relevant keys). -/
structure PermConfig where
  view : ViewPerms := {}
  editMainForm : Bool := false
  editMainFormRoles : List String := []
  editMainFormUsers : List String := []
  editChildForms : Bool := false
  editChildFormsRoles : List String := []
  editChildFormsUsers : List String := []
deriving DecidableEq, Repr

/-- The JSON value stored under the permissions key: either a dict of
the shape above, or some other JSON value, on which attribute access
(`permissions.get(...)`) raises and is caught by the fail-closed
handler of `check_state_permissions`. -/
inductive PermVal where
  | obj (p : PermConfig)
  | malformed
deriving DecidableEq, Repr

/-- One entry of `config.defaultApprovers` on an approval node. -/
structure ApproverEntry where
  type : Option String := Option.none
  userId : Option Nat := Option.none
  roleId : Option Nat := Option.none
deriving DecidableEq, Repr

/-- Engine-relevant keys of a node config JSON. -/
structure NodeConfig where
  stateKey : Option String := Option.none
  permissions : Option PermVal := Option.none
  defaultApprovers : List ApproverEntry := []
  timeoutDays : Option Int := Option.none
deriving DecidableEq, Repr

structure WorkflowNode where
  id : Nat
  workflow : Nat
  node_type : String
  label : String
  config : NodeConfig := {}
deriving DecidableEq, Repr

/-- A connection row; `target_node` is the joined node object
(`select_related('target_node')`), `source_node` the source node id. -/
structure WorkflowConnection where
  id : Nat
  source_node : Nat
  target_node : WorkflowNode
  action_config : Option ActionConfig := Option.none
deriving DecidableEq, Repr

structure Workflow where
  id : Nat
  document_type : Nat
  is_active : Bool := true
deriving DecidableEq, Repr

structure Document where
  id : Nat
  document_type : Nat
  submitted_by : Nat
  current_state : String := ""
deriving DecidableEq, Repr

structure User where
  id : Nat
  groups : List Nat := []
deriving DecidableEq, Repr

/-- One derived approval action (§3 Action of the spec; the dict built
by `get_available_actions`). -/
structure Action where
  connectionId : Nat
  key : String
  label : String
  buttonColor : String
  requiresComment : Bool
  order : Int
  icon : String
  targetNodeId : Nat
  targetState : String
deriving DecidableEq, Repr

structure ApprovalTask where
  id : Nat
  document : Nat
  workflow_node : Nat
  assigned_to_users : List Nat := []
  assigned_to_roles : List Nat := []
  available_actions : List Action := []
  status : String := "pending"
  completed_by : Option Nat := Option.none
  completed_at : Option Nat := Option.none
  action_taken : String := ""
  comment : String := ""
  due_date : Option Int := Option.none
  created_at : Nat := 0
deriving DecidableEq, Repr

structure DocumentStateHistory where
  id : Nat
  document : Nat
  from_state : String := ""
  to_state : String
  transitioned_by : Option Nat := Option.none
  action_key : String := ""
  action_label : String := ""
  comment : String := ""
  workflow_node : Option Nat := Option.none
  metadata : List (String × String) := []
  created_at : Nat := 0
deriving DecidableEq, Repr

/-- The durable store, with a uuid counter and the current time. -/
structure Store where
  nodes : List WorkflowNode := []
  connections : List WorkflowConnection := []
  workflows : List Workflow := []
  documents : List Document := []
  tasks : List ApprovalTask := []
  histories : List DocumentStateHistory := []
  users : List User := []
  groups : List Nat := []
  now : Nat := 0
  next_id : Nat := 0
deriving DecidableEq, Repr

/-- Errors raised by the engine (all `ValueError` in the Python source;
the constructors record the error taxonomy of §7 of the spec).
`documentMissing` has no counterpart in the source: the ORM foreign key
guarantees the document row of a task exists, and the branch only makes
the store lookup total. -/
inductive EngineError where
  | invalidState (status : String)
  | actionNotFound (key : String)
  | commentRequired (label : String)
  | configurationError
  | targetNodeMissing (id : Nat)
  | documentMissing
deriving DecidableEq, Repr


/-! ## Workflow engine operations (core/workflow_engine.py) -/

/-- The action dict built for one qualifying connection inside the loop
of `get_available_actions` (workflow_engine.py lines 61 to 84). -/
def mkAction (conn : WorkflowConnection) : Action :=
  let action_config := conn.action_config.getD {}
  let target_state_config := conn.target_node.config
  { connectionId := conn.id
    key := strReplaceChar (strToLower (action_config.label.getD "Action")) ' ' '_'
    label := action_config.label.getD "Action"
    buttonColor := action_config.buttonColor.getD "primary"
    requiresComment := action_config.requiresComment.getD false
    order := action_config.order.getD 1
    icon := action_config.icon.getD ""
    targetNodeId := conn.target_node.id
    targetState := target_state_config.stateKey.getD "" }

/-- The outgoing connections of an approval node whose target is a state
node: the ones the loop of `get_available_actions` keeps.  The
connection list of the store is ordered by created_at (the Meta ordering
of workflow_connections), so list order is creation order. -/
def qualifyingConnections (s : Store) (approval_node : WorkflowNode) : List WorkflowConnection :=
  (s.connections.filter (fun c => c.source_node == approval_node.id)).filter
    (fun c => c.target_node.node_type == "state")

/-- `WorkflowEngine.get_available_actions` (workflow_engine.py lines 31
to 89): build an action per approval-to-state connection, then sort by
order.  Python list.sort is a stable sort by the order key, modelled by
`List.mergeSort`. -/
def get_available_actions (s : Store) (approval_node : WorkflowNode) : List Action :=
  ((qualifyingConnections s approval_node).map mkAction).mergeSort
    (fun a b => decide (a.order ≤ b.order))

/-- `WorkflowEngine.get_approvers` (workflow_engine.py lines 92 to 147):
resolve defaultApprovers entries to (user ids, role ids); entries that
do not resolve are skipped.  A submitter_manager entry is always
skipped: django.contrib.auth User has no manager attribute, so the
hasattr guard is False.  `if user_id:` and `if role_id:` are Python
truthiness tests, so an absent or zero id is skipped before lookup. -/
def get_approvers (s : Store) (approval_node : WorkflowNode) (_document : Document) :
    List Nat × List Nat :=
  let entries := approval_node.config.defaultApprovers
  let users := entries.filterMap (fun e =>
    if e.type == some "user" then
      match e.userId with
      | some uid =>
        if uid != 0 && s.users.any (fun u => u.id == uid) then some uid else Option.none
      | Option.none => Option.none
    else Option.none)
  let roles := entries.filterMap (fun e =>
    if e.type == some "role" then
      match e.roleId with
      | some rid =>
        if rid != 0 && s.groups.any (fun g => g == rid) then some rid else Option.none
      | Option.none => Option.none
    else Option.none)
  (users, roles)

/-- The due-date computation of `create_approval_task` (lines 179 to
186): `if timeout_days: ... elif approval_node.config: ...` with Python
truthiness (a zero timeout is falsy, an all-defaults config models the
falsy empty dict). -/
def dueDate (s : Store) (approval_node : WorkflowNode) (timeout_days : Option Int) : Option Int :=
  let fallback : Option Int :=
    if approval_node.config != ({} : NodeConfig) then
      match approval_node.config.timeoutDays with
      | some t => if t != 0 then some ((s.now : Int) + t) else Option.none
      | Option.none => Option.none
    else Option.none
  match timeout_days with
  | some d => if d != 0 then some ((s.now : Int) + d) else fallback
  | Option.none => fallback

/-- `WorkflowEngine.create_approval_task` (workflow_engine.py lines 149
to 203). -/
def create_approval_task (s : Store) (document : Document) (approval_node : WorkflowNode)
    (timeout_days : Option Int) : Except EngineError (Store × ApprovalTask) :=
  let available_actions := get_available_actions s approval_node
  if available_actions.isEmpty then
    -- raise ValueError: approval node has no outgoing connections to state nodes
    .error .configurationError
  else
    let approvers := get_approvers s approval_node document
    let task : ApprovalTask :=
      { id := s.next_id
        document := document.id
        workflow_node := approval_node.id
        assigned_to_users := approvers.1
        assigned_to_roles := approvers.2
        available_actions := available_actions
        status := "pending"
        due_date := dueDate s approval_node timeout_days
        created_at := s.now }
    .ok ({ s with tasks := task :: s.tasks, next_id := s.next_id + 1 }, task)

/-- `WorkflowEngine.transition_to_state` (workflow_engine.py lines 205
to 255): write the document current_state and append one history row.
The Python method runs inside the caller transaction; sequentially it
always succeeds, returning the new store and the created history. -/
def transition_to_state (s : Store) (document : Document) (target_node : WorkflowNode)
    (transitioned_by : Nat) (action_key action_label comment : String)
    (metadata : List (String × String)) : Store × DocumentStateHistory :=
  -- from_state = document.current_state or ''   (an unset state is "")
  let from_state := document.current_state
  -- to_state = target_node.config.get('stateKey', target_node.label)
  let to_state := target_node.config.stateKey.getD target_node.label
  let documents := s.documents.map (fun d =>
    if d.id == document.id then { d with current_state := to_state } else d)
  let history : DocumentStateHistory :=
    { id := s.next_id
      document := document.id
      from_state := from_state
      to_state := to_state
      transitioned_by := some transitioned_by
      action_key := action_key
      action_label := action_label
      comment := comment
      workflow_node := some target_node.id
      metadata := metadata
      created_at := s.now }
  ({ s with documents := documents, histories := history :: s.histories,
            next_id := s.next_id + 1 }, history)

/-- The completed version of a task written by `approval_task.save()`
(workflow_engine.py lines 319 to 325). -/
def completedTask (task : ApprovalTask) (user : Nat) (now : Nat) (action_key comment : String) :
    ApprovalTask :=
  { task with status := "completed", completed_by := some user, completed_at := some now,
              action_taken := action_key, comment := comment }

/-- `WorkflowEngine.execute_approval_action` (workflow_engine.py lines
257 to 342).  The whole method runs in one transaction; an error models
the raised ValueError with nothing committed. -/
def execute_approval_action (s : Store) (approval_task : ApprovalTask) (action_key : String)
    (user : Nat) (comment : String) : Except EngineError (Store × DocumentStateHistory) :=
  -- if approval_task.status != 'pending': raise
  if approval_task.status != "pending" then .error (.invalidState approval_task.status)
  else
    -- first entry of available_actions whose key matches
    match approval_task.available_actions.find? (fun a => a.key == action_key) with
    | Option.none => .error (.actionNotFound action_key)
    | some action =>
      -- if action.get('requiresComment') and not comment: raise
      -- (`not comment` is string emptiness; whitespace is truthy)
      if action.requiresComment && comment == "" then .error (.commentRequired action.label)
      else
        match s.nodes.find? (fun n => n.id == action.targetNodeId) with
        | Option.none => .error (.targetNodeMissing action.targetNodeId)
        | some target_node =>
          match s.documents.find? (fun d => d.id == approval_task.document) with
          | Option.none => .error .documentMissing
          | some document =>
            let step : Store × DocumentStateHistory := transition_to_state s document target_node user action_key
              action.label comment
              [("approval_task_id", toString approval_task.id),
               ("approval_node_id", toString approval_task.workflow_node),
               ("button_color", action.buttonColor)]
            let s1 : Store := step.1
            -- approval_task.save() with the completed fields
            let s2 : Store := { s1 with tasks := s1.tasks.map (fun t =>
              if t.id == approval_task.id then
                completedTask approval_task user s.now action_key comment
              else t) }
            -- cancel other pending tasks for this document at the same node
            let s3 : Store := { s2 with tasks := s2.tasks.map (fun t =>
              if t.document == approval_task.document &&
                 t.workflow_node == approval_task.workflow_node &&
                 t.status == "pending" && t.id != approval_task.id then
                { t with status := "cancelled" }
              else t) }
            .ok (s3, step.2)

end Nocodile

namespace Nocodile

/-- `document.document_type.workflows.filter(is_active=True).first()`
(workflow_engine.py line 414).  The workflow list of the store is
ordered by the Meta ordering of workflows (descending created_at), so
`.first()` is the head of the filtered list. -/
def activeWorkflow (s : Store) (document : Document) : Option Workflow :=
  (s.workflows.filter (fun w => w.document_type == document.document_type && w.is_active)).head?

/-- The state nodes of a workflow, in created_at order (the Meta
ordering of workflow_nodes), as queried at lines 418 to 421. -/
def stateNodesOf (s : Store) (w : Workflow) : List WorkflowNode :=
  s.nodes.filter (fun n => n.workflow == w.id && n.node_type == "state")

/-- The loop of lines 423 to 428: the first state node whose config
stateKey equals the document current_state.  An absent stateKey reads
as Python None, which never equals the state string. -/
def findCurrentStateNode (s : Store) (w : Workflow) (document : Document) :
    Option WorkflowNode :=
  (stateNodesOf s w).find? (fun n =>
    match n.config.stateKey with
    | some k => k == document.current_state
    | Option.none => false)

/-- The stateKey-or-label resolution of a state node, used by
`transition_to_state` and named resolveStateKey in §4.1 of the spec. -/
def resolveStateKey (n : WorkflowNode) : String :=
  n.config.stateKey.getD n.label

/-- Whether any approval task of the document is assigned to the user
directly, or to one of the user roles (workflow_engine.py lines 444 to
459; note the filter has no status constraint: any task counts). -/
def userHasApprovalTask (s : Store) (document : Document) (user : User) : Bool :=
  s.tasks.any (fun t => t.document == document.id && t.assigned_to_users.contains user.id) ||
  s.tasks.any (fun t => t.document == document.id &&
    t.assigned_to_roles.any (fun r => user.groups.contains r))

/-- `WorkflowEngine.check_state_permissions` (workflow_engine.py lines
394 to 517).  The whole body is wrapped in `except Exception: return
False`; in this model the only raising path is attribute access on a
malformed permissions value, which therefore returns false. -/
def check_state_permissions (s : Store) (document : Document) (user : User)
    (permission_type : String) : Bool :=
  match activeWorkflow s document with
  | Option.none => false
  | some workflow =>
    match findCurrentStateNode s workflow document with
    | Option.none => false
    | some current_state_node =>
      match current_state_node.config.permissions.getD (.obj {}) with
      | .malformed => false  -- .get on a non-dict raises; caught, fail closed
      | .obj permissions =>
        if permission_type == "view" then
          let view_perms := permissions.view
          if view_perms.includeSubmitter && document.submitted_by == user.id then true
          else if view_perms.includeApprovers && userHasApprovalTask s document user then true
          else if !view_perms.roles.isEmpty &&
                  user.groups.any (fun g => view_perms.roles.contains (toString g)) then true
          else if view_perms.users.contains (toString user.id) then true
          else false
        else if permission_type == "edit_main_form" then
          if !permissions.editMainForm then false
          else if !permissions.editMainFormRoles.isEmpty &&
                  !user.groups.any (fun g => permissions.editMainFormRoles.contains (toString g))
            then false
          else if !permissions.editMainFormUsers.isEmpty &&
                  !permissions.editMainFormUsers.contains (toString user.id) then false
          else true
        else if permission_type == "edit_child_forms" then
          if !permissions.editChildForms then false
          else if !permissions.editChildFormsRoles.isEmpty &&
                  !user.groups.any (fun g => permissions.editChildFormsRoles.contains (toString g))
            then false
          else if !permissions.editChildFormsUsers.isEmpty &&
                  !permissions.editChildFormsUsers.contains (toString user.id) then false
          else true
        else false

end Nocodile

/-! ## Claims about the condition evaluator -/

/-- Claim C10: for every condition whose field path is dotted as
section.field but whose arrayMode is unset, `evaluate_condition`
performs a scalar lookup of only the suffix field name against the
top-level data record — it evaluates
`compare(data[field], operator, value)` and never descends into
`data[section]` — so the section part of the path is ignored whenever
arrayMode is absent. -/
theorem evaluate_condition_dotted_scalar (c : Condition) (data : List (String × PyVal))
    (f : String) (hf : c.field = some f) (hdot : strContainsChar f '.' = true)
    (hm : c.arrayMode = Option.none) :
    evaluate_condition c data =
      evaluate_comparison
        (entryLookupD data (joinWith "." (strSplitOnChar f '.').tail) .none)
        (c.operator.getD "=") c.value := by
  unfold evaluate_condition conditionSection
  rw [hf, hm]
  simp [hdot, optStrTruthy]

/-- Witness for C10: a concrete dotted condition reads the top-level
suffix key (amount is 150 at top level, so the condition holds) and the
section value is never entered. -/
theorem evaluate_condition_dotted_scalar_witness :
    evaluate_condition
        { field := some "sec.amount", operator := some ">=", value := .int 100 }
        [("amount", .int 150), ("sec", .list [])] =
      evaluate_comparison
        (entryLookupD [("amount", .int 150), ("sec", .list [])]
          (joinWith "." (strSplitOnChar "sec.amount" '.').tail) .none)
        ">=" (.int 100) ∧
    evaluate_condition
        { field := some "sec.amount", operator := some ">=", value := .int 100 }
        [("amount", .int 150), ("sec", .list [])] = true :=
  ⟨evaluate_condition_dotted_scalar _ _ "sec.amount" rfl (by decide) rfl, by decide⟩

/-- Counterexample to claim C5: the claim says a missing
`data[sectionKey]` yields false whenever a section is named and
arrayMode is set; but `rows = data.get(section_key, [])` substitutes the
empty list for a missing key, and with `arrayMode = none` the evaluator
returns true (vacuously no row matches) on data that has no such key at
all. -/
theorem evaluate_condition_missing_section_counterexample :
    evaluate_condition
      { sectionKey := some "rows", field := some "qty", operator := some "=",
        value := .int 1, arrayMode := some "none" } [] = true := by decide

/-- Claim C5 as amended: with a section named and arrayMode set, a
present but non-sequence `data[sectionKey]` yields false; a missing
`sectionKey` is instead treated as the empty sequence (the evaluation
equals the one on data extended with an empty list under that key, so
any and all yield false but none yields true and count and sum compare
0 against the value). -/
theorem evaluate_condition_section_amended (c : Condition) (data : List (String × PyVal))
    (sk : String) (hsec : (conditionSection c).1 = some sk) (hsk : sk ≠ "")
    (hmode : optStrTruthy c.arrayMode = true) :
    (∀ v, entryLookup data sk = some v → v.isList = false →
      evaluate_condition c data = false) ∧
    (entryLookup data sk = Option.none →
      evaluate_condition c data = evaluate_condition c ((sk, .list []) :: data)) := by
  have h1 : optStrTruthy (some sk) = true := by simp [optStrTruthy, hsk]
  constructor
  · intro v hv hvl
    unfold evaluate_condition
    rcases hcs : conditionSection c with ⟨s1, fk⟩
    simp only [hcs] at hsec
    subst hsec
    have hval : entryLookupD data sk (.list []) = v := by simp [entryLookupD, hv]
    simp only [h1, hmode, Bool.not_true, Bool.or_self, Bool.false_or, if_false, hval]
    cases v <;> simp_all [PyVal.isList]
  · intro hnone
    unfold evaluate_condition
    rcases hcs : conditionSection c with ⟨s1, fk⟩
    simp only [hcs] at hsec
    subst hsec
    have ha : entryLookupD data sk (.list []) = .list [] := by simp [entryLookupD, hnone]
    have hb : entryLookupD ((sk, PyVal.list []) :: data) sk (.list []) = .list [] := by
      simp [entryLookupD, entryLookup]
    simp only [h1, hmode, Bool.not_true, Bool.or_self, Bool.false_or, Option.getD_some]
    rw [ha, hb]
    simp

/-- Witness for the amended C5: a non-list section value yields false,
and a missing section key evaluates exactly as an empty section. -/
theorem evaluate_condition_section_amended_witness :
    evaluate_condition
      { sectionKey := some "rows", field := some "qty", operator := some "=",
        value := .int 1, arrayMode := some "any" } [("rows", .int 5)] = false ∧
    evaluate_condition
      { sectionKey := some "rows", field := some "qty", operator := some "=",
        value := .int 1, arrayMode := some "any" } [] =
    evaluate_condition
      { sectionKey := some "rows", field := some "qty", operator := some "=",
        value := .int 1, arrayMode := some "any" } [("rows", .list [])] :=
  ⟨(evaluate_condition_section_amended _ _ "rows" (by decide) (by decide) (by decide)).1
      (.int 5) rfl rfl,
   (evaluate_condition_section_amended _ _ "rows" (by decide) (by decide) (by decide)).2 rfl⟩

/-- Counterexample to claim C6: the claim says `contains` coerces both
operands to text before testing; the source evaluates
`right in str(left)`, coercing only the left operand, so a non-string
right operand raises TypeError (caught, yielding false) even when its
text form occurs in the text form of the left operand. -/
theorem evaluate_comparison_contains_counterexample :
    evaluate_comparison (.int 12) "contains" (.int 2) = false ∧
    strContains (pyStr (.int 12)) (pyStr (.int 2)) = true := by
  constructor <;> decide

/-- Claim C6 as amended: compare with an ordering operator coerces both
operands to numeric and returns false (never raising) when either
operand fails numeric coercion; starts_with and ends_with coerce both
operands to text; contains coerces only the left operand to text — a
non-text right operand degrades to false (the caught TypeError), so no
operand type raises. -/
theorem evaluate_comparison_coercion_amended :
    (∀ l r op, (op = "<" ∨ op = "<=" ∨ op = ">" ∨ op = ">=") →
      (floatOk l = false ∨ floatOk r = false) → evaluate_comparison l op r = false) ∧
    (∀ l r, evaluate_comparison l "starts_with" r = strStartsWith (pyStr l) (pyStr r)) ∧
    (∀ l r, evaluate_comparison l "ends_with" r = strEndsWith (pyStr l) (pyStr r)) ∧
    (∀ l p, evaluate_comparison l "contains" (.str p) = strContains (pyStr l) p) ∧
    (∀ l r, r.isStr = false → evaluate_comparison l "contains" r = false) := by
  refine ⟨?_, ?_, ?_, ?_, ?_⟩
  · intro l r op hop hfail
    have hlr : ∀ x, floatOk x = false → ∃ e, pyToFloat x = .error e := by
      intro x hx
      unfold floatOk at hx
      cases hpx : pyToFloat x with
      | ok q => rw [hpx] at hx; simp at hx
      | error e => exact ⟨e, rfl⟩
    rcases hop with h | h | h | h <;> subst h <;>
      unfold evaluate_comparison compare_body <;>
      simp only [reduceIte, String.reduceEq] <;>
      rcases hfail with hf | hf
    all_goals
      rcases hlr _ hf with ⟨e, he⟩
      cases hl : pyToFloat l <;> cases hr : pyToFloat r <;>
        simp_all [Except.bind, Bind.bind]
  · intro l r
    unfold evaluate_comparison compare_body
    simp
  · intro l r
    unfold evaluate_comparison compare_body
    simp
  · intro l p
    unfold evaluate_comparison compare_body
    simp
  · intro l r hr
    unfold evaluate_comparison compare_body
    cases r <;> simp_all [PyVal.isStr]

/-- Witness for the amended C6 at concrete operands: a non-numeric
ordering operand yields false; text operators behave as stated; a
non-string right operand of contains yields false. -/
theorem evaluate_comparison_coercion_amended_witness :
    evaluate_comparison (.str "abc") ">=" (.int 100) = false ∧
    evaluate_comparison (.str "hello") "starts_with" (.str "he") =
      strStartsWith (pyStr (.str "hello")) (pyStr (.str "he")) ∧
    evaluate_comparison (.str "hello") "ends_with" (.str "lo") =
      strEndsWith (pyStr (.str "hello")) (pyStr (.str "lo")) ∧
    evaluate_comparison (.str "hello world") "contains" (.str "lo w") =
      strContains (pyStr (.str "hello world")) "lo w" ∧
    evaluate_comparison (.str "12") "contains" (.int 2) = false :=
  ⟨evaluate_comparison_coercion_amended.1 _ _ _ (Or.inr (Or.inr (Or.inr rfl)))
      (Or.inl (by decide)),
   evaluate_comparison_coercion_amended.2.1 _ _,
   evaluate_comparison_coercion_amended.2.2.1 _ _,
   evaluate_comparison_coercion_amended.2.2.2.1 _ _,
   evaluate_comparison_coercion_amended.2.2.2.2 _ _ (by decide)⟩

namespace Nocodile

/-! ## Claims about the workflow engine -/

/-- Shared helper: the derived action list is a stable sort by order of
the qualifying-connection actions. -/
theorem get_available_actions_eq (s : Store) (node : WorkflowNode) :
    get_available_actions s node =
      ((qualifyingConnections s node).map mkAction).mergeSort
        (fun a b => decide (a.order ≤ b.order)) := rfl

/-- Claim C4: for every approval node with N outgoing connections whose
target node kind is state and M outgoing connections to non-state
nodes, `get_available_actions` returns exactly N actions (never any for
the M non-state targets: the result is a permutation of the actions of
the qualifying connections), sorted ascending by order with ties broken
by connection creation order (for each order value, the actions with
that order appear exactly as in creation order), and returns the empty
list when N = 0. -/
theorem get_available_actions_spec (s : Store) (node : WorkflowNode) :
    (get_available_actions s node).length = (qualifyingConnections s node).length ∧
    (get_available_actions s node).Perm ((qualifyingConnections s node).map mkAction) ∧
    (get_available_actions s node).Pairwise (fun a b => a.order ≤ b.order) ∧
    (∀ k : Int, (get_available_actions s node).filter (fun a => a.order == k) =
      ((qualifyingConnections s node).map mkAction).filter (fun a => a.order == k)) ∧
    (qualifyingConnections s node = [] → get_available_actions s node = []) := by
  have htrans : ∀ (a b c : Action), decide (a.order ≤ b.order) = true →
      decide (b.order ≤ c.order) = true → decide (a.order ≤ c.order) = true := by
    intro a b c h1 h2
    simp only [decide_eq_true_eq] at *
    omega
  have htotal : ∀ (a b : Action),
      (decide (a.order ≤ b.order) || decide (b.order ≤ a.order)) = true := by
    intro a b
    simp only [Bool.or_eq_true, decide_eq_true_eq]
    omega
  refine ⟨?_, ?_, ?_, ?_, ?_⟩
  · rw [get_available_actions_eq, List.length_mergeSort, List.length_map]
  · rw [get_available_actions_eq]
    exact List.mergeSort_perm _ _
  · rw [get_available_actions_eq]
    have hp := List.sorted_mergeSort htrans htotal
      ((qualifyingConnections s node).map mkAction)
    exact hp.imp (by intro a b h; simpa using h)
  · intro k
    rw [get_available_actions_eq]
    set input := (qualifyingConnections s node).map mkAction with hinput
    set p : Action → Bool := fun a => a.order == k with hp
    have hc_mem : ∀ x ∈ input.filter p, x.order = k := by
      intro x hx
      have := (List.mem_filter.mp hx).2
      simpa [hp] using this
    have hcpair : (input.filter p).Pairwise
        (fun a b => (fun a b : Action => decide (a.order ≤ b.order)) a b) := by
      apply List.pairwise_of_forall_mem_list
      intro a ha b hb
      have h1 := hc_mem a ha
      have h2 := hc_mem b hb
      simp [h1, h2]
    have hsub : List.Sublist (input.filter p) input := List.filter_sublist input
    have hsubres : List.Sublist (input.filter p)
        (input.mergeSort (fun a b => decide (a.order ≤ b.order))) :=
      List.sublist_mergeSort htrans htotal hcpair hsub
    have hfilter_eq : (input.filter p).filter p = input.filter p := by
      rw [List.filter_eq_self]
      intro a ha
      exact (List.mem_filter.mp ha).2
    have h2 : List.Sublist (input.filter p)
        ((input.mergeSort (fun a b => decide (a.order ≤ b.order))).filter p) := by
      have := hsubres.filter p
      rwa [hfilter_eq] at this
    have hperm : List.Perm
        ((input.mergeSort (fun a b => decide (a.order ≤ b.order))).filter p)
        (input.filter p) :=
      (List.mergeSort_perm input _).filter p
    exact (h2.eq_of_length hperm.length_eq.symm).symm
  · intro h
    rw [get_available_actions_eq, h]
    simp

end Nocodile

namespace Nocodile

/-! ### Concrete fixtures used by the witnesses -/

def dApproval : WorkflowNode := { id := 1, workflow := 10, node_type := "approval", label := "UH Approval" }

def dApproved : WorkflowNode := { id := 2, workflow := 10, node_type := "state", label := "Approved", config := { stateKey := some "UH_APPROVED" } }

def dRejected : WorkflowNode := { id := 3, workflow := 10, node_type := "state", label := "Rejected", config := { stateKey := some "UH_REJECTED" } }

def dEmail : WorkflowNode := { id := 4, workflow := 10, node_type := "email", label := "Mail" }

def dNoKey : WorkflowNode := { id := 5, workflow := 10, node_type := "state", label := "FallbackLabel" }

def dConnApprove : WorkflowConnection := { id := 21, source_node := 1, target_node := dApproved, action_config := some { label := some "Approve", order := some 2 } }

def dConnReject : WorkflowConnection := { id := 22, source_node := 1, target_node := dRejected, action_config := some { label := some "Reject", requiresComment := some true, order := some 1 } }

def dConnMail : WorkflowConnection := { id := 23, source_node := 1, target_node := dEmail, action_config := some { label := some "Mail", order := some 0 } }

def dConnSendBack : WorkflowConnection := { id := 24, source_node := 1, target_node := dNoKey, action_config := some { label := some "Send Back", order := some 1 } }

def dDoc : Document := { id := 100, document_type := 7, submitted_by := 50, current_state := "DRAFT" }

def dStore : Store := { nodes := [dApproval, dApproved, dRejected, dEmail, dNoKey], connections := [dConnApprove, dConnReject, dConnMail, dConnSendBack], documents := [dDoc], now := 1000, next_id := 500 }

/-- The action snapshot of the demo tasks (the result of deriving at
task-creation time). -/
def dActions : List Action := [mkAction dConnReject, mkAction dConnSendBack, mkAction dConnApprove]

def dTask1 : ApprovalTask := { id := 300, document := 100, workflow_node := 1, available_actions := dActions }

def dTask2 : ApprovalTask := { id := 301, document := 100, workflow_node := 1, available_actions := dActions }

def dTask3 : ApprovalTask := { id := 302, document := 100, workflow_node := 9, available_actions := dActions }

def dTask4 : ApprovalTask := { id := 303, document := 100, workflow_node := 1, available_actions := dActions, status := "cancelled" }

def dStore2 : Store := { dStore with tasks := [dTask1, dTask2, dTask3, dTask4] }

/-- Witness for C4 at the demo graph: the derived count equals the
qualifying-connection count, which is 3 (the email connection excluded),
and a node with no qualifying connections derives the empty list. -/
theorem get_available_actions_spec_witness :
    (get_available_actions dStore dApproval).length =
      (qualifyingConnections dStore dApproval).length ∧
    (qualifyingConnections dStore dApproval).length = 3 ∧
    get_available_actions dStore dEmail = [] :=
  ⟨(get_available_actions_spec dStore dApproval).1, by decide,
   (get_available_actions_spec dStore dEmail).2.2.2.2 (by decide)⟩

end Nocodile

/-- Whether an Except value is a success. -/
def exceptOk {ε α : Type} : Except ε α → Bool
  | .ok _ => true
  | .error _ => false

namespace Nocodile

/-- Counterexample to claim C2: the matched reject action requires a
comment, the supplied comment is the single blank " ", and the call
succeeds — the source tests `not comment`, which is plain string
emptiness, so a whitespace-only comment does not count as absent. -/
theorem execute_blank_comment_counterexample :
    exceptOk (execute_approval_action dStore2 dTask1 "reject" 50 " ") = true ∧
    (dTask1.available_actions.find? (fun a => a.key == "reject")).map
      (fun a => a.requiresComment) = some true := by
  constructor <;> decide

/-- Claim C2 as amended: for a pending task whose matched action has
requiresComment set, `execute_approval_action` with an empty comment
fails with CommentRequiredError, and on this failure nothing is written
(the error is raised before any write and the transaction commits
nothing, which the Except-valued model renders by returning no store);
a whitespace-only comment is treated as supplied, so it never fails
with CommentRequiredError. -/
theorem execute_comment_required_amended (s : Store) (task : ApprovalTask) (k : String)
    (u : Nat) (c : String) (action : Action)
    (hp : task.status = "pending")
    (hf : task.available_actions.find? (fun a => a.key == k) = some action)
    (hr : action.requiresComment = true) :
    (c = "" → execute_approval_action s task k u c =
      .error (.commentRequired action.label)) ∧
    (c ≠ "" → ∀ lbl, execute_approval_action s task k u c ≠
      .error (.commentRequired lbl)) := by
  unfold execute_approval_action
  rw [hf]
  have hp2 : (task.status != "pending") = false := by simp [hp]
  rw [hp2]
  constructor
  · intro hc
    subst hc
    simp [hr]
  · intro hc lbl
    have hcc : (c == "") = false := by simpa using hc
    simp only [hr, hcc, Bool.and_false, Bool.false_eq_true, if_false, Bool.true_and]
    cases hn : s.nodes.find? (fun n => n.id == action.targetNodeId) with
    | none => simp
    | some target =>
      cases hd : s.documents.find? (fun d => d.id == task.document) with
      | none => simp
      | some doc => simp

/-- Witness for the amended C2: with the demo reject action, the empty
comment fails with CommentRequiredError and the blank comment never
produces that error. -/
theorem execute_comment_required_amended_witness :
    execute_approval_action dStore2 dTask1 "reject" 50 "" =
      .error (.commentRequired (mkAction dConnReject).label) ∧
    ∀ lbl, execute_approval_action dStore2 dTask1 "reject" 50 " " ≠
      .error (.commentRequired lbl) :=
  ⟨(execute_comment_required_amended dStore2 dTask1 "reject" 50 ""
      (mkAction dConnReject) rfl (by decide) (by decide)).1 rfl,
   (execute_comment_required_amended dStore2 dTask1 "reject" 50 " "
      (mkAction dConnReject) rfl (by decide) (by decide)).2 (by decide)⟩

end Nocodile

namespace Nocodile

/-- Claim C3: when `execute_approval_action` completes a task, every
other task for the same (document, node) pair that was pending becomes
cancelled, the acted-on task is written with its completed fields, and
every task for a different document or node — as well as every sibling
already in a terminal status — keeps its status and all other fields
unchanged.  The conclusion characterises the entire task table of the
resulting store as a pointwise map of the original one. -/
theorem execute_sibling_cancellation (s s2 : Store) (task : ApprovalTask) (k : String)
    (u : Nat) (c : String) (h : DocumentStateHistory)
    (hex : execute_approval_action s task k u c = .ok (s2, h)) :
    s2.tasks = s.tasks.map (fun t =>
      if t.id == task.id then completedTask task u s.now k c
      else if t.document == task.document && t.workflow_node == task.workflow_node &&
              t.status == "pending" then { t with status := "cancelled" }
      else t) := by
  unfold execute_approval_action at hex
  split at hex
  · simp at hex
  split at hex
  · simp at hex
  next action hfind =>
    split at hex
    · simp at hex
    split at hex
    · simp at hex
    next target hnode =>
      split at hex
      · simp at hex
      next doc hdoc =>
        rw [Except.ok.injEq, Prod.mk.injEq] at hex
        obtain ⟨hs, hh⟩ := hex
        rw [← hs]
        simp only [transition_to_state, List.map_map]
        apply List.map_congr_left
        intro t _
        by_cases hid : (t.id == task.id) = true
        · simp [Function.comp, hid, completedTask]
        · simp only [Function.comp, hid, Bool.false_eq_true, if_false]
          have hbne : (t.id != task.id) = true := by
            simp [bne]
            simpa using hid
          simp [hbne, hid]

/-- Witness for C3 at the demo store: completing dTask1 cancels its
pending sibling dTask2, leaves the other-node dTask3 pending and the
already-cancelled dTask4 untouched. -/
theorem execute_sibling_cancellation_witness :
    (execute_approval_action dStore2 dTask1 "approve" 50 "").map
        (fun p => p.1.tasks) =
      .ok (dStore2.tasks.map (fun t =>
        if t.id == dTask1.id then completedTask dTask1 50 dStore2.now "approve" ""
        else if t.document == dTask1.document &&
                t.workflow_node == dTask1.workflow_node &&
                t.status == "pending" then { t with status := "cancelled" }
        else t)) := by
  cases hex : execute_approval_action dStore2 dTask1 "approve" 50 "" with
  | error e =>
    have hok : exceptOk (execute_approval_action dStore2 dTask1 "approve" 50 "") = true := by
      decide
    rw [hex] at hok
    simp [exceptOk] at hok
  | ok p =>
    obtain ⟨s2, h⟩ := p
    rw [Except.map, execute_sibling_cancellation dStore2 s2 dTask1 "approve" 50 "" h hex]

/-- Claim C9: for a qualifying connection whose target state node config
lacks a stateKey, the action snapshot carries targetState equal to the
empty string, while executing a transition to that node sets the
document current_state to the node label — so for such a node with a
nonempty label the snapshot targetState differs from the state the
document ends in. -/
theorem action_target_state_divergence (s : Store) (node : WorkflowNode)
    (conn : WorkflowConnection) (doc : Document) (u : Nat) (k lbl cm : String)
    (md : List (String × String))
    (hmem : conn ∈ s.connections) (hsrc : conn.source_node = node.id)
    (hkind : conn.target_node.node_type = "state")
    (hkey : conn.target_node.config.stateKey = Option.none) :
    mkAction conn ∈ get_available_actions s node ∧
    (mkAction conn).targetState = "" ∧
    (transition_to_state s doc conn.target_node u k lbl cm md).1.documents =
      s.documents.map (fun d =>
        if d.id == doc.id then { d with current_state := conn.target_node.label }
        else d) ∧
    (conn.target_node.label ≠ "" →
      (mkAction conn).targetState ≠ conn.target_node.label) := by
  have hts : (mkAction conn).targetState = "" := by
    simp [mkAction, hkey]
  refine ⟨?_, hts, ?_, ?_⟩
  · rw [get_available_actions_eq, List.mem_mergeSort]
    apply List.mem_map_of_mem
    unfold qualifyingConnections
    rw [List.mem_filter, List.mem_filter]
    refine ⟨⟨hmem, ?_⟩, ?_⟩ <;> simp [hsrc, hkind]
  · simp [transition_to_state, hkey]
  · intro hlbl
    rw [hts]
    exact fun hcontra => hlbl hcontra.symm

/-- Witness for C9: the demo Send Back connection targets a state node
with no stateKey; its snapshot targetState is empty while a transition
through it puts the document in state FallbackLabel. -/
theorem action_target_state_divergence_witness :
    mkAction dConnSendBack ∈ get_available_actions dStore dApproval ∧
    (mkAction dConnSendBack).targetState = "" ∧
    (transition_to_state dStore dDoc dConnSendBack.target_node 50 "send_back"
        "Send Back" "" []).1.documents =
      dStore.documents.map (fun d =>
        if d.id == dDoc.id then { d with current_state := dConnSendBack.target_node.label }
        else d) ∧
    (mkAction dConnSendBack).targetState ≠ dConnSendBack.target_node.label := by
  have h := action_target_state_divergence dStore dApproval dConnSendBack dDoc 50
    "send_back" "Send Back" "" [] (by decide) rfl rfl rfl
  exact ⟨h.1, h.2.1, h.2.2.1, h.2.2.2 (by decide)⟩

end Nocodile

namespace Nocodile

/-- Claim C8: `create_approval_task` fails with ConfigurationError if
and only if the derived action list of the approval node is empty, and
otherwise persists exactly one new task with status pending; every
assigned user and role of the created task resolves to an existing row
of the store — defaultApprovers entries that do not resolve are
silently skipped and never make creation fail (creation succeeds for
every defaultApprovers list, as the success case is unconditional in
it). -/
theorem create_approval_task_spec (s : Store) (document : Document)
    (node : WorkflowNode) (td : Option Int) :
    (create_approval_task s document node td = .error .configurationError ↔
      get_available_actions s node = []) ∧
    (get_available_actions s node ≠ [] →
      ∃ s2 t, create_approval_task s document node td = .ok (s2, t) ∧
        t.status = "pending" ∧ s2.tasks = t :: s.tasks ∧
        (∀ uid ∈ t.assigned_to_users, s.users.any (fun us => us.id == uid) = true) ∧
        (∀ rid ∈ t.assigned_to_roles, s.groups.contains rid = true)) := by
  constructor
  · unfold create_approval_task
    by_cases he : (get_available_actions s node).isEmpty = true
    · rw [if_pos he]
      simp [List.isEmpty_iff.mp he]
    · rw [if_neg he]
      constructor
      · intro hcontra
        simp at hcontra
      · intro hcontra
        exact absurd (List.isEmpty_iff.mpr hcontra) he
  · intro hne
    have he : (get_available_actions s node).isEmpty = false := by
      rcases hi : (get_available_actions s node).isEmpty with _ | _
      · rfl
      · exact absurd (List.isEmpty_iff.mp hi) hne
    unfold create_approval_task
    simp only [he, Bool.false_eq_true, if_false]
    refine ⟨_, _, rfl, rfl, rfl, ?_, ?_⟩
    · intro uid hm
      unfold get_approvers at hm
      simp only at hm
      rw [List.mem_filterMap] at hm
      obtain ⟨e, _, hf⟩ := hm
      split at hf
      · split at hf
        · split at hf
          · simp only [Option.some.injEq] at hf
            subst hf
            rename_i hcond
            rw [Bool.and_eq_true] at hcond
            exact hcond.2
          · simp at hf
        · simp at hf
      · simp at hf
    · intro rid hm
      unfold get_approvers at hm
      simp only at hm
      rw [List.mem_filterMap] at hm
      obtain ⟨e, _, hf⟩ := hm
      split at hf
      · split at hf
        · split at hf
          · simp only [Option.some.injEq] at hf
            subst hf
            rename_i hcond
            rw [Bool.and_eq_true] at hcond
            have := hcond.2
            rw [List.any_eq_true] at this
            obtain ⟨g, hg, hgr⟩ := this
            rw [List.contains_iff_exists_mem_beq]
            exact ⟨g, hg, by simpa [BEq.comm] using hgr⟩
          · simp at hf
        · simp at hf
      · simp at hf

end Nocodile

namespace Nocodile

/-- Shared helper: the derived action list has as many actions as there
are qualifying connections. -/
theorem get_available_actions_length (s : Store) (node : WorkflowNode) :
    (get_available_actions s node).length = (qualifyingConnections s node).length := by
  rw [get_available_actions_eq, List.length_mergeSort, List.length_map]

def dApproval2 : WorkflowNode := { id := 6, workflow := 10, node_type := "approval", label := "Second", config := { defaultApprovers := [{ type := some "user", userId := some 123 }, { type := some "user", userId := some 44 }, { type := some "submitter_manager" }, { type := some "role", roleId := some 8 }] } }

def dConnSecond : WorkflowConnection := { id := 25, source_node := 6, target_node := dApproved, action_config := some { label := some "Go" } }

def dStore3 : Store := { dStore with nodes := dStore.nodes ++ [dApproval2], connections := dStore.connections ++ [dConnSecond], users := [{ id := 44 }], groups := [8] }

/-- Witness for C8: an approval node with no state connections fails
with ConfigurationError; one with a single state connection and a
defaultApprovers list holding an unresolvable user, a resolvable user,
a submitter_manager entry and a resolvable role creates exactly one
pending task whose assignees all resolve. -/
theorem create_approval_task_spec_witness :
    create_approval_task dStore dDoc dEmail Option.none =
      .error .configurationError ∧
    (∃ s2 t, create_approval_task dStore3 dDoc dApproval2 Option.none = .ok (s2, t) ∧
      t.status = "pending" ∧ s2.tasks = t :: dStore3.tasks ∧
      (∀ uid ∈ t.assigned_to_users, (dStore3.users.any fun us => us.id == uid) = true) ∧
      (∀ rid ∈ t.assigned_to_roles, dStore3.groups.contains rid = true)) := by
  constructor
  · apply (create_approval_task_spec dStore dDoc dEmail Option.none).1.mpr
    have h1 := get_available_actions_length dStore dEmail
    have h2 : (qualifyingConnections dStore dEmail).length = 0 := by decide
    rw [h2] at h1
    exact List.length_eq_zero.mp h1
  · apply (create_approval_task_spec dStore3 dDoc dApproval2 Option.none).2
    intro hcontra
    have h1 := get_available_actions_length dStore3 dApproval2
    rw [hcontra] at h1
    have h2 : (qualifyingConnections dStore3 dApproval2).length = 1 := by decide
    rw [h2] at h1
    simp at h1

end Nocodile

namespace Nocodile

/-- Claim C7: `check_state_permissions` for view returns true for the
document submitter whenever the located state node permissions set
includeSubmitter, regardless of every other permission field (the
quantified P fixes only that flag); it returns false for every user and
permission kind when no state node of the active workflow resolves to
the document current_state (also when there is no active workflow); and
the modelled evaluation failure — a malformed permissions value, on
which attribute access raises — yields false rather than an error. -/
theorem check_view_permission_spec (s : Store) (document : Document) (user : User) :
    (∀ w node P, activeWorkflow s document = some w →
      findCurrentStateNode s w document = some node →
      node.config.permissions.getD (.obj {}) = .obj P →
      P.view.includeSubmitter = true → document.submitted_by = user.id →
      check_state_permissions s document user "view" = true) ∧
    (∀ ptype,
      (∀ w, activeWorkflow s document = some w →
        ∀ n ∈ stateNodesOf s w, resolveStateKey n ≠ document.current_state) →
      check_state_permissions s document user ptype = false) ∧
    (∀ ptype w node, activeWorkflow s document = some w →
      findCurrentStateNode s w document = some node →
      node.config.permissions = some .malformed →
      check_state_permissions s document user ptype = false) := by
  refine ⟨?_, ?_, ?_⟩
  · intro w node P hw hfind hperm hsub hsubmit
    unfold check_state_permissions
    simp only [hw, hfind, hperm]
    simp [hsub, hsubmit]
  · intro ptype hres
    unfold check_state_permissions
    cases hw : activeWorkflow s document with
    | none => rfl
    | some w =>
      have hfind : findCurrentStateNode s w document = Option.none := by
        unfold findCurrentStateNode
        rw [List.find?_eq_none]
        intro n hn hcontra
        cases hk : n.config.stateKey with
        | none => rw [hk] at hcontra; simp at hcontra
        | some key =>
          rw [hk] at hcontra
          simp only [beq_iff_eq] at hcontra
          apply hres w hw n hn
          rw [resolveStateKey, hk]
          simpa using hcontra
      simp only [hfind]
  · intro ptype w node hw hfind hmal
    unfold check_state_permissions
    simp only [hw, hfind, hmal]
    simp

def dWf : Workflow := { id := 10, document_type := 7, is_active := true }

def dPermNode : WorkflowNode := { id := 2, workflow := 10, node_type := "state", label := "Approved", config := { stateKey := some "UH_APPROVED", permissions := some (.obj { view := { includeSubmitter := true, users := ["99"] } }) } }

def dMalNode : WorkflowNode := { id := 2, workflow := 10, node_type := "state", label := "Approved", config := { stateKey := some "UH_APPROVED", permissions := some .malformed } }

def dPermStore : Store := { nodes := [dPermNode], workflows := [dWf] }

def dMalStore : Store := { nodes := [dMalNode], workflows := [dWf] }

def dDocA : Document := { id := 100, document_type := 7, submitted_by := 50, current_state := "UH_APPROVED" }

/-- Witness for C7: the submitter sees the document when
includeSubmitter is set; a document whose state matches no node denies
everyone; a malformed permissions value denies rather than raising. -/
theorem check_view_permission_spec_witness :
    check_state_permissions dPermStore dDocA { id := 50 } "view" = true ∧
    check_state_permissions dPermStore { dDocA with current_state := "NOWHERE" }
      { id := 50 } "view" = false ∧
    check_state_permissions dMalStore dDocA { id := 50 } "view" = false := by
  refine ⟨?_, ?_, ?_⟩
  · exact (check_view_permission_spec dPermStore dDocA { id := 50 }).1 dWf dPermNode
      _ (by decide) (by decide) rfl rfl rfl
  · apply (check_view_permission_spec dPermStore _ { id := 50 }).2.1 "view"
    intro w hw n hn
    have hw0 : activeWorkflow dPermStore { dDocA with current_state := "NOWHERE" } =
        some dWf := by decide
    rw [hw0, Option.some.injEq] at hw
    subst hw
    have hsn : stateNodesOf dPermStore dWf = [dPermNode] := by decide
    rw [hsn, List.mem_singleton] at hn
    subst hn
    decide
  · exact (check_view_permission_spec dMalStore dDocA { id := 50 }).2.2 "view" dWf
      dMalNode (by decide) (by decide) rfl

end Nocodile
